import Mathlib

/-!
Verification development for the changer-capacity repository
(src/changer_capacity/utils/facilities_capacity.py).

The Python module operates on GeoDataFrame tables.  We embed a table as a
List of rows.  Each row is a structure whose fields are the columns the
module reads or writes.  Numeric float columns that can hold NaN
(capacity, new_capacity, added_capacity) are Option Rat, with none playing
the role of NaN; arithmetic propagates none exactly as IEEE arithmetic
propagates NaN, comparisons with none are false, and pandas sums and maxes
skip none (skipna=True, the pandas default).  The sanpin_cap column holds
either a finite number or plus infinity (np.inf); it is an Option Rat with
none playing the role of +inf (it is never NaN in the module).  Exact
rational arithmetic idealises float arithmetic; math.exp is abstracted as
an explicit function parameter expf, since no claim depends on its values
beyond the code structure.  Geometry (shapely/geopandas) is third-party
plumbing; it is abstracted as an opaque row payload of type G together
with the spatial observations the module makes of it: geom_type,
containment (the sjoin within predicate), area and centroid.
-/

namespace Changer

/-- The geom_type column: shapely geometry kind as read by the module. -/
inductive GType where
  | point
  | polygon
  | other
deriving DecidableEq

/-- The cap_type column: base (placeholder capacity) or real (observed). -/
inductive CapType where
  | base
  | real
deriving DecidableEq

/-- One facility row.  Columns not yet produced by a stage hold their
default values; every stage only reads columns already produced, mirroring
the DataFrame accruing columns left to right.  keepY and dropY model the
suffixed keep and drop_reason columns produced by the pandas merge at the
end of merge_points_into_polygons_keep_polys (explained at that
definition); they are none when that merge did not run. -/
structure Fac (G : Type) where
  geom : G
  geomType : GType := GType.other
  capacity : Option ℚ := none
  capType : CapType := CapType.base
  keep : Bool := true
  dropReason : Option String := none
  sanpin : Option ℚ := none
  blockId : ℤ := 0
  demand : ℚ := 0
  capMax : ℚ := 0
  newCap : Option ℚ := none
  addCap : Option ℚ := none
  sat : Bool := false
  unmet : ℚ := 0
  keepY : Option Bool := none
  dropY : Option (Option String) := none
deriving DecidableEq

/-- One demand-zone (block) row, as produced by prepare_blocks_with_demand. -/
structure Block (G : Type) where
  geom : G
  population : Option ℚ := none
  blockId : ℤ := 0
  demand : ℚ := 0
deriving DecidableEq

/-- The spatial observations the module makes of geometry: geom_type of a
geometry, the sjoin within predicate, polygon area, polygon centroid.
These stand for the shapely/geopandas operations, which are external
collaborators of the module. -/
structure GeoCtx (G : Type) where
  gtypeOf : G → GType
  within : G → G → Bool
  area : G → ℚ
  centroid : G → G

/-- Default facility row used with List.getD. -/
def dfac {G : Type} [Inhabited G] : Fac G := { geom := default }

/-- NaN-propagating addition on nullable floats. -/
def oadd : Option ℚ → Option ℚ → Option ℚ
  | some a, some b => some (a + b)
  | _, _ => none

/-- NaN-propagating subtraction on nullable floats. -/
def osub : Option ℚ → Option ℚ → Option ℚ
  | some a, some b => some (a - b)
  | _, _ => none

/-- NaN-propagating multiplication on nullable floats. -/
def omul : Option ℚ → Option ℚ → Option ℚ
  | some a, some b => some (a * b)
  | _, _ => none

/-- NaN-propagating division on nullable floats.  Every division the
module performs has a denominator already checked nonzero, so the
rational convention for division by zero is never exercised. -/
def odiv : Option ℚ → Option ℚ → Option ℚ
  | some a, some b => some (a / b)
  | _, _ => none

/-- Series.clip(lower=0): NaN stays NaN, numbers are clamped below by 0. -/
def clip0 : Option ℚ → Option ℚ :=
  Option.map (fun x => max 0 x)

/-- np.minimum: NaN-propagating pointwise minimum. -/
def omin : Option ℚ → Option ℚ → Option ℚ
  | some a, some b => some (min a b)
  | _, _ => none

/-- Comparison of a nullable float with a threshold; NaN compares false,
as in pandas. -/
def oleB (a : Option ℚ) (t : ℚ) : Bool :=
  match a with
  | some x => decide (x ≤ t)
  | none => false

/-- Strict comparison of two nullable floats; NaN compares false. -/
def oltB : Option ℚ → Option ℚ → Bool
  | some a, some b => decide (a < b)
  | _, _ => false

/-- Series.sum() with skipna=True: sum of the non-null entries,
0 for an all-null or empty series. -/
def sumSkip : List (Option ℚ) → ℚ
  | [] => 0
  | none :: t => sumSkip t
  | some v :: t => v + sumSkip t

/-- Series.max() with skipna=True: maximum of the non-null entries,
NaN (none) when there are none. -/
def maxSkip : List (Option ℚ) → Option ℚ
  | [] => none
  | none :: t => maxSkip t
  | some v :: t =>
    match maxSkip t with
    | none => some v
    | some m => some (max v m)

/-- Python builtin min(a, b) where a may be NaN: returns b if b < a and
a otherwise, so a NaN first argument is returned unchanged. -/
def pymin (a : Option ℚ) (b : ℚ) : Option ℚ :=
  match a with
  | none => none
  | some x => some (if b < x then b else x)

/-- Maximum of a plain float series (used for the global demand maximum;
the demand column is never NaN after attach_blocks).  0 on the empty
list; the empty case is never read because an empty table produces an
empty output. -/
def listMaxQ : List ℚ → ℚ
  | [] => 0
  | x :: t => max x (listMaxQ t)

/-- round(x, 0) on a float Series: round half to even, written out on the
floor of x and the fractional remainder x - floor x. -/
def roundHE (x : ℚ) : ℚ :=
  if x - (Int.floor x : ℚ) < 1/2 then (Int.floor x : ℚ)
  else if 1/2 < x - (Int.floor x : ℚ) then ((Int.floor x + 1 : ℤ) : ℚ)
  else if Int.floor x % 2 = 0 then (Int.floor x : ℚ)
  else ((Int.floor x + 1 : ℤ) : ℚ)

/-- Rounding of a nullable float; NaN stays NaN. -/
def oround : Option ℚ → Option ℚ :=
  Option.map roundHE

/-- np.isclose with its default tolerances rtol=1e-5, atol=1e-8. -/
def npisclose (a b : ℚ) : Bool :=
  decide (|a - b| ≤ 1/100000000 + (1/100000) * |b|)

/-- saturated flag: np.isclose(new_capacity, cap_max); false on NaN. -/
def osat (a : Option ℚ) (m : ℚ) : Bool :=
  match a with
  | some v => npisclose v m
  | none => false

/-- The module utility _isclose(a, b, tol=1e-6). -/
def isclose (a b : ℚ) : Bool :=
  decide (|a - b| ≤ 1/1000000)

variable {G : Type}

/-- prepare_blocks_with_demand: adds demand = population.fillna(0) *
demand_per_1000 / 1000 and a block_id column (the row index when the
input table has no block_id column; ids is some l when the column is
present).  The CRS handling of _ensure_crs is geometry plumbing outside
the abstraction. -/
def prepare_blocks_with_demand (dp1000 : ℚ) (blocksIn : List (G × Option ℚ))
    (ids : Option (List ℤ)) : List (Block G) :=
  match ids with
  | some l =>
    (blocksIn.zip l).map (fun p =>
      { geom := p.1.1, population := p.1.2, blockId := p.2,
        demand := (p.1.2.getD 0) * dp1000 / 1000 })
  | none =>
    blocksIn.enum.map (fun p =>
      { geom := p.2.1, population := p.2.2, blockId := (p.1 : ℤ),
        demand := (p.2.2.getD 0) * dp1000 / 1000 })

/-- The _cap_type closure of prepare_services_cap_types: null capacity is
base; otherwise base iff _isclose(v, base_count), else real. -/
def capTypeOf (bc : ℚ) : Option ℚ → CapType
  | none => CapType.base
  | some v => if isclose v bc then CapType.base else CapType.real

/-- prepare_services_cap_types: derives geom_type from the geometry and
classifies cap_type from the capacity column. -/
def prepare_services_cap_types (ctx : GeoCtx G) (bc : ℚ)
    (rows : List (Fac G)) : List (Fac G) :=
  rows.map (fun r =>
    { r with geomType := ctx.gtypeOf r.geom, capType := capTypeOf bc r.capacity })

/-- The result of merge_points_into_polygons_keep_polys.  rows is the
GeoDataFrame the function returns.  flags is the internal working copy
gdf in which covered points are marked keep=False; the function joins its
keep and drop_reason columns back onto the returned table positionally
(left_index=right_index after ignore_index=True), which the keepY and
dropY fields of the returned rows record. -/
structure MergeOut (G : Type) where
  rows : List (Fac G)
  flags : List (Fac G)
deriving DecidableEq

/-- Resetting of the keep and drop_reason columns at the top of the
merger (gdf[KEEP_COL] = True; gdf[DROP_REASON_COL] = pd.NA). -/
def resetFlags (r : Fac G) : Fac G :=
  { r with keep := true, dropReason := none, keepY := none, dropY := none }

/-- A point row covered by some polygon row of the table: the sjoin
within predicate against the polygon partition. -/
def coveredBy (ctx : GeoCtx G) (polys : List (Fac G)) (p : Fac G) : Bool :=
  polys.any (fun q => ctx.within p.geom q.geom)

/-- The polygon partition of the merger working table
(gdf[gdf.geom_type == Polygon]). -/
def mergePolys (rows : List (Fac G)) : List (Fac G) :=
  (rows.map resetFlags).filter (fun r => decide (r.geomType = GType.polygon))

/-- The point partition of the merger working table. -/
def mergePoints (rows : List (Fac G)) : List (Fac G) :=
  (rows.map resetFlags).filter (fun r => decide (r.geomType = GType.point))

/-- The covered points: the points of the left sjoin with a non-null
polygon match (pts_idx). -/
def mergeCovered (ctx : GeoCtx G) (rows : List (Fac G)) : List (Fac G) :=
  (mergePoints rows).filter (fun p => coveredBy ctx (mergePolys rows) p)

/-- The real covered points whose capacities are transferred. -/
def mergeRealPts (ctx : GeoCtx G) (rows : List (Fac G)) : List (Fac G) :=
  (mergeCovered ctx rows).filter (fun p => decide (p.capType = CapType.real))

/-- One polygon after the transfer step: the groupby(index_right).max of
the capacities of the real covered points within it, if any, with
cap_type set to real (per_poly assignment). -/
def updPoly (ctx : GeoCtx G) (rows : List (Fac G)) (q : Fac G) : Fac G :=
  if ((mergeRealPts ctx rows).filter
      (fun p => ctx.within p.geom q.geom)).isEmpty then q
  else { q with
    capacity := maxSkip (((mergeRealPts ctx rows).filter
      (fun p => ctx.within p.geom q.geom)).map (fun p => p.capacity)),
    capType := CapType.real }

/-- The working table after marking covered points dropped
(gdf.loc[pts_idx, KEEP] = False etc.); rows are marked by content, the
DataFrame having a default RangeIndex. -/
def mergeFlags (ctx : GeoCtx G) (rows : List (Fac G)) : List (Fac G) :=
  (rows.map resetFlags).map (fun r =>
    if decide (r.geomType = GType.point) && coveredBy ctx (mergePolys rows) r
    then { r with keep := false, dropReason := some "covered_by_polygon" }
    else r)

/-- The uncovered points (points.drop(index=pts_idx)). -/
def mergeRemaining (ctx : GeoCtx G) (rows : List (Fac G)) : List (Fac G) :=
  (mergePoints rows).filter (fun p => !coveredBy ctx (mergePolys rows) p)

/-- The rows that are neither points nor polygons. -/
def mergeOthers (rows : List (Fac G)) : List (Fac G) :=
  (rows.map resetFlags).filter (fun r =>
    !decide (r.geomType = GType.polygon) && !decide (r.geomType = GType.point))

/-- The reassembled table: updated polygons ++ remaining points ++ other
geometries (pd.concat with ignore_index=True). -/
def mergeConcat (ctx : GeoCtx G) (rows : List (Fac G)) : List (Fac G) :=
  (mergePolys rows).map (updPoly ctx rows) ++ mergeRemaining ctx rows ++
    mergeOthers rows

/-- merge_points_into_polygons_keep_polys.  Partition into points and
polygons; if either partition is empty or no point is covered, return the
input with the fresh keep/drop_reason columns.  Otherwise transfer onto
each polygon the groupby-max of the capacities of the real covered points
within it, set its cap_type to real, mark covered points dropped in the
working table, and return polygons ++ uncovered points ++ other
geometries with the working-table flags joined back by position.
Covered points are dropped from the returned rows (points.drop(pts_idx)).
Row identity is by content: the DataFrame has a default RangeIndex, and
the index sets the code selects with are characterised by the row
predicates used here. -/
def merge_points_into_polygons_keep_polys (ctx : GeoCtx G)
    (rows : List (Fac G)) : MergeOut G :=
  if (mergePoints rows).isEmpty || (mergePolys rows).isEmpty then
    ⟨rows.map resetFlags, rows.map resetFlags⟩
  else if (mergeCovered ctx rows).isEmpty then
    ⟨rows.map resetFlags, rows.map resetFlags⟩
  else
    -- the final positional merge of the keep/drop_reason columns of the
    -- working table onto the reassembled table (suffixed keep_y and
    -- drop_reason_y columns)
    ⟨(mergeConcat ctx rows).enum.map (fun p =>
        { p.2 with
          keepY := ((mergeFlags ctx rows).get? p.1).map (fun f => f.keep),
          dropY := ((mergeFlags ctx rows).get? p.1).map
            (fun f => f.dropReason) }),
      mergeFlags ctx rows⟩

/-- add_sanpin_ceiling: sanpin_cap = floor(area / m2_per_person) for base
polygons, +inf (none) otherwise. -/
def add_sanpin_ceiling (ctx : GeoCtx G) (m2pp : ℚ)
    (rows : List (Fac G)) : List (Fac G) :=
  rows.map (fun r =>
    { r with sanpin :=
        if r.geomType = GType.polygon ∧ r.capType = CapType.base then
          some ((Rat.floor (ctx.area r.geom / m2pp) : ℤ) : ℚ)
        else none })

/-- The anchor used for the spatial join of attach_blocks: the geometry
itself for points, the centroid for polygons. -/
def anchorOf (ctx : GeoCtx G) (r : Fac G) : G :=
  if r.geomType = GType.polygon then ctx.centroid r.geom else r.geom

/-- The demand zones whose polygon contains a facility anchor (the rows
the left sjoin of attach_blocks produces for that facility). -/
def zoneMatches (ctx : GeoCtx G) (blocks : List (Block G)) (r : Fac G) :
    List (Block G) :=
  blocks.filter (fun b => ctx.within (anchorOf ctx r) b.geom)

/-- The per-facility assignment of the successful attach_blocks path:
the unique matching zone id and demand, or the fillna values -1 and
0.0 for an unmatched facility. -/
def assignBlock (ctx : GeoCtx G) (blocks : List (Block G)) (r : Fac G) :
    Fac G :=
  match (zoneMatches ctx blocks r).head? with
  | none => { r with blockId := -1, demand := 0 }
  | some b => { r with blockId := b.blockId, demand := b.demand }

/-- attach_blocks.  The left spatial join yields max(1, m) rows per
facility, m its number of matching zones; the assignments
gf[BLOCK_ID_COL] = sj[BLOCK_ID_COL].values then require the joined length
to equal the facility count and otherwise raise a pandas ValueError,
which happens exactly when some anchor lies in more than one zone.  In
the success case each facility receives its unique matching zone id and
demand, with fillna(-1) and fillna(0.0) for unmatched facilities. -/
def attach_blocks (ctx : GeoCtx G) (rows : List (Fac G))
    (blocks : List (Block G)) : Except String (List (Fac G)) :=
  -- counts = per-facility number of sjoin matches; the joined frame has
  -- max(1, m) rows per facility (how="left")
  if ((rows.map (fun r => (zoneMatches ctx blocks r).length)).map
      (fun m => max 1 m)).sum ≠ rows.length then
    Except.error "Length of values does not match length of index"
  else
    Except.ok (rows.map (assignBlock ctx blocks))

/-- np.minimum(triple, sanpin) with sanpin possibly +inf (none). -/
def minQS (t : ℚ) (s : Option ℚ) : ℚ :=
  match s with
  | none => t
  | some v => min t v

/-- The per-row ceiling of add_cap_max: base = capacity.fillna(0);
cap_max = base for real rows and min(3 * base, sanpin_cap) for base
rows. -/
def capMaxRow (r : Fac G) : Fac G :=
  { r with capMax :=
      (if r.capType = CapType.base then
        minQS (3 * r.capacity.getD 0) r.sanpin
      else r.capacity.getD 0) }

/-- add_cap_max applies the ceiling rule to every row. -/
def add_cap_max (rows : List (Fac G)) : List (Fac G) :=
  rows.map capMaxRow

/-- The column initialisation at the top of allocate_relative_to_max:
new_capacity = capacity, added_capacity = 0.0, saturated = False,
unmet_block_demand = 0.0.  A row not touched by any per-zone write keeps
exactly these values. -/
def initAlloc (r : Fac G) : Fac G :=
  { r with newCap := r.capacity, addCap := some 0, sat := false, unmet := 0 }

/-- Per-facility headroom (cap_max - capacity).clip(lower=0); NaN for
null capacity. -/
def headOfF (r : Fac G) : Option ℚ :=
  clip0 (osub (some r.capMax) r.capacity)

/-- The iterative clip-and-redistribute loop (for _ in range(12)) of
allocate_relative_to_max, over the headroom vector and the tentative
allocation vector of the base rows of one zone.  Each pass breaks when no
allocation overshoots its headroom by more than 1e-9 (a NaN entry
compares false, so a zone holding a null-capacity row never takes that
break), clips to headroom, breaks when no entry is strictly free, and
otherwise redistributes the clipped surplus proportionally to the
headroom of the free entries. -/
def wfill (head : List (Option ℚ)) : Nat → List (Option ℚ) → List (Option ℚ)
  | 0, add => add
  | Nat.succ n, add =>
    -- over := add - head; break when all over <= 1e-9
    if (List.zipWith osub add head).all (fun o => oleB o (1/1000000000)) then add
    -- add1 := np.minimum(add, head); free := add1 < head - 1e-12;
    -- break when no entry is free, returning add1
    else if !(List.zipWith (fun a h => oltB a (osub h (some (1/1000000000000))))
        (List.zipWith omin add head) head).any id then
      List.zipWith omin add head
    -- otherwise add1[free] += surplus * (head[free] / head[free].sum())
    -- with surplus := over.clip(lower=0).sum(), and iterate
    else
      wfill head n
        (List.zipWith
          (fun (p : Option ℚ × Option ℚ) (f : Bool) =>
            if f then
              oadd p.1
                (omul (some (sumSkip ((List.zipWith osub add head).map clip0)))
                  (odiv p.2
                    (some (sumSkip ((head.zip
                        (List.zipWith
                          (fun a h => oltB a (osub h (some (1/1000000000000))))
                          (List.zipWith omin add head) head)).filterMap
                      (fun p => if p.2 then some p.1 else none))))))
            else p.1)
          ((List.zipWith omin add head).zip head)
          (List.zipWith (fun a h => oltB a (osub h (some (1/1000000000000))))
            (List.zipWith omin add head) head))

/-- The guard chain and allocation vector of the per-zone loop body of
allocate_relative_to_max: none when the zone is skipped by a continue
(demand_b <= 0, no base rows, non-positive total headroom, non-positive
zone budget add_total), otherwise the water-filled allocation vector of
the base rows gb of the zone.  expf stands for math.exp, dmax for the
global demand maximum and wmax for exp(k * 1.0), both computed once
outside the loop. -/
def groupAdds (expf : ℚ → ℚ) (k dmax wmax : ℚ) (gb : List (Nat × Fac G))
    (demandB : ℚ) : Option (List (Option ℚ)) :=
  if demandB ≤ 0 then none else
  if gb.length = 0 then none else
  let head := gb.map (fun q => headOfF q.2)
  let total := sumSkip head
  if total ≤ 0 then none else
  let wblock := expf (k * (demandB / dmax))
  let hml := maxSkip head
  let T := omul (omul hml (some (wblock / wmax))) (some (gb.length : ℚ))
  let addTotal := pymin T total
  if oleB addTotal 0 then none else
  some (wfill head 12 (head.map (fun h => omul (odiv h (some total)) addTotal)))

/-- The base-row sublist of a groupby group (bdf.index of the rows with
cap_type == base). -/
def baseRows (g : List (Nat × Fac G)) : List (Nat × Fac G) :=
  g.filter (fun q => decide (q.2.capType = CapType.base))

/-- The per-zone loop body of allocate_relative_to_max, evaluated at one
row.  g is the groupby group of the row: the enumerated rows sharing its
block_id, in table order, so the group demand is read off the first group
row.  A skipped zone leaves the row at its initialised columns; otherwise
the base rows of the group receive the water-filled allocation, matched
to this row by its original index i among the group base rows, and
non-base rows stay initialised. -/
def allocRow (expf : ℚ → ℚ) (k dmax wmax : ℚ) (g : List (Nat × Fac G))
    (i : Nat) (r : Fac G) : Fac G :=
  match g with
  | [] => initAlloc r
  | p :: _ =>
    match groupAdds expf k dmax wmax (baseRows g) p.2.demand with
    | none => initAlloc r
    | some adds =>
      if r.capType = CapType.base then
        match (baseRows g).findIdx? (fun q => decide (q.1 = i)) with
        | none => initAlloc r
        | some pos =>
          let a := adds.getD pos none
          let nc := oround (oadd r.capacity a)
          { r with addCap := a, newCap := nc, sat := osat nc r.capMax, unmet := 0 }
      else initAlloc r

/-- allocate_relative_to_max.  The groupby loop writes, for each zone,
only the added_capacity, new_capacity and saturated columns of the base
rows of that zone, reading columns no zone write touches, so it equals
the per-row evaluation of the zone body on the row own group.  The
cap_max column is always present in the pipeline, so the add_cap_max
fallback branch is not taken. -/
def allocate_relative_to_max (expf : ℚ → ℚ) (k : ℚ)
    (rows : List (Fac G)) : List (Fac G) :=
  let dmax := max (listMaxQ (rows.map (fun r => r.demand))) 1
  let wmax := expf (k * 1)
  rows.enum.map (fun p =>
    allocRow expf k dmax wmax
      (rows.enum.filter (fun q => decide (q.2.blockId = p.2.blockId)))
      p.1 p.2)

/-- recompute: the full pipeline.  attach_blocks can raise, hence the
Except result. -/
def recompute (ctx : GeoCtx G) (expf : ℚ → ℚ)
    (blocksIn : List (G × Option ℚ)) (ids : Option (List ℤ))
    (serviceIn : List (Fac G)) (dp1000 bc m2pp k : ℚ) :
    Except String (List (Fac G)) :=
  let gb := prepare_blocks_with_demand dp1000 blocksIn ids
  let gf0 := prepare_services_cap_types ctx bc serviceIn
  let gf1 := (merge_points_into_polygons_keep_polys ctx gf0).rows
  let gf2 := add_sanpin_ceiling ctx m2pp gf1
  match attach_blocks ctx gf2 gb with
  | Except.error e => Except.error e
  | Except.ok gf3 => Except.ok (allocate_relative_to_max expf k (add_cap_max gf3))

/-- Pointwise relation between a tentative allocation entry and the
corresponding headroom entry. -/
def relAH : Option ℚ → Option ℚ → Prop
  | some a, some h => 0 ≤ a ∧ a ≤ h
  | none, none => True
  | _, _ => False

/-- The columns allocate_relative_to_max never writes. -/
def fieldsPreserved (o r : Fac G) : Prop :=
  o.geom = r.geom ∧ o.geomType = r.geomType ∧ o.capacity = r.capacity ∧
  o.capType = r.capType ∧ o.keep = r.keep ∧ o.dropReason = r.dropReason ∧
  o.sanpin = r.sanpin ∧ o.blockId = r.blockId ∧ o.demand = r.demand ∧
  o.capMax = r.capMax

/-! ### Fixtures over G = Nat for the claim counterexamples and
witnesses, and the merger spec predicates -/

/-- Geometry kind fixture over Nat payloads: payloads below 10 are
points, payloads in 10..19 are polygons, the rest other geometries. -/
def natGType : Nat → GType :=
  fun g => if g < 10 then GType.point else if g < 20 then GType.polygon
    else GType.other

/-- A stand-in for math.exp: any positive function works for the claims,
whose truth never depends on the values of exp beyond the code shape; the
constant function 1 gives the exact budget multiplier 1 that the real exp
produces for a zone at the global demand maximum. -/
def constOne : ℚ → ℚ := fun _ => 1

/-- Context for the C1 counterexample: a single base polygon with small
footprint, no demand zones. -/
def ctxSmallPoly : GeoCtx Nat :=
  { gtypeOf := natGType, within := fun _ _ => false,
    area := fun _ => 10, centroid := fun g => g }

/-- A one-row fixture for the C1 witness: a base facility with integer
capacity 100, ceiling 300, in a zone of positive demand. -/
def facW1 : Fac Nat :=
  { geom := 0, geomType := GType.point, capacity := some 100,
    capType := CapType.base, blockId := 0, demand := 5, capMax := 300 }

/-- A row fixture for the C2 witness: base, capacity 50, sanpin 400. -/
def facW2 : Fac Nat :=
  { geom := 12, geomType := GType.polygon, capacity := some 50,
    capType := CapType.base, sanpin := some 400 }

/-- A real-row fixture for the C3 witness. -/
def facW3 : Fac Nat :=
  { geom := 1, geomType := GType.point, capacity := some 250,
    capType := CapType.real, blockId := 0, demand := 7, capMax := 250 }

/-- Context for the sentinel-collision counterexample: facility geometry
1 lies in zone geometry 20, facility geometry 2 lies in no zone. -/
def ctxSentinel : GeoCtx Nat :=
  { gtypeOf := natGType, within := fun a b => decide (a = 1 ∧ b = 20),
    area := fun _ => 10, centroid := fun g => g }

/-- Two base point facilities of capacity 100 (the base_count). -/
def rowsSentinel : List (Fac Nat) :=
  prepare_services_cap_types ctxSentinel 100
    [{ geom := 1, capacity := some 100 }, { geom := 2, capacity := some 100 }]

/-- One zone with a user-supplied block_id of -1, population 1000,
demand_per_1000 = 300, so demand 300. -/
def blocksSentinel : List (Block Nat) :=
  prepare_blocks_with_demand 300 [((20 : Nat), some 1000)] (some [-1])

/-- Context for the C7 and C8 witnesses: facility geometry 1 lies in the
single zone geometry 20; facility geometry 2 lies in no zone. -/
def ctxW7 : GeoCtx Nat :=
  { gtypeOf := natGType, within := fun a b => decide (a = 1 ∧ b = 20),
    area := fun _ => 10, centroid := fun g => g }

def rowsW7 : List (Fac Nat) :=
  [{ geom := 1, geomType := GType.point, capacity := some 100,
     capType := CapType.base },
   { geom := 2, geomType := GType.point, capacity := some 100,
     capType := CapType.base }]

def blocksW7 : List (Block Nat) :=
  [{ geom := 20, blockId := 3, demand := 12 }]

def gf3W7 : List (Fac Nat) := rowsW7.map (assignBlock ctxW7 blocksW7)

/-- Context for the C8 counterexample: every anchor lies in every zone. -/
def ctxEverywhere : GeoCtx Nat :=
  { gtypeOf := natGType, within := fun _ _ => true,
    area := fun _ => 10, centroid := fun g => g }

/-- A row geometry lies within some polygon row of the table. -/
def coversAny (ctx : GeoCtx G) (rows : List (Fac G)) (p : Fac G) : Bool :=
  rows.any (fun q => decide (q.geomType = GType.polygon) &&
    ctx.within p.geom q.geom)

/-- A covered point of the input table: a point row strictly contained
in some polygon row (the sjoin within predicate of the merger). -/
def isCoveredPoint (ctx : GeoCtx G) (rows : List (Fac G)) (p : Fac G) :
    Bool :=
  decide (p.geomType = GType.point) && coversAny ctx rows p

/-- The capacities that the merger groupby-maxes onto the polygon with
geometry g: those of the real covered points lying within g, in table
order (the conjunct order mirrors the successive filters of the
merger). -/
def realCoveredCaps (ctx : GeoCtx G) (rows : List (Fac G)) (g : G) :
    List (Option ℚ) :=
  ((rows.filter (fun p =>
      ((coversAny ctx rows p && decide (p.geomType = GType.point)) &&
        decide (p.capType = CapType.real)) &&
      ctx.within p.geom g)).map (fun p => p.capacity))

/-- Context for the C4 theorems: point geometry 2 lies strictly within
polygon geometry 12. -/
def ctxC4 : GeoCtx Nat :=
  { gtypeOf := natGType, within := fun a b => decide (a = 2 ∧ b = 12),
    area := fun _ => 1, centroid := fun g => g }

/-- A base polygon of capacity 7 covering a real point of capacity 50. -/
def rowsC4 : List (Fac Nat) :=
  [{ geom := 12, geomType := GType.polygon, capacity := some 7 },
   { geom := 2, geomType := GType.point, capacity := some 50,
     capType := CapType.real }]

/-- Context for the C6 counterexample: point geometry 1 lies strictly
within polygon geometry 11. -/
def ctxC6 : GeoCtx Nat :=
  { gtypeOf := natGType, within := fun a b => decide (a = 1 ∧ b = 11),
    area := fun _ => 1, centroid := fun g => g }

/-- A base polygon of capacity 5 covering a real point of capacity 9. -/
def rowsC6 : List (Fac Nat) :=
  [{ geom := 11, geomType := GType.polygon, capacity := some 5 },
   { geom := 1, geomType := GType.point, capacity := some 9,
     capType := CapType.real }]

/-- Context for the C9 counterexample: facility geometries 1 and 2 (both
points) lie in the demand-zone geometry 20. -/
def ctxC9 : GeoCtx Nat :=
  { gtypeOf := natGType,
    within := fun a b => decide ((a = 1 ∨ a = 2) ∧ b = 20),
    area := fun _ => 1, centroid := fun g => g }

/-- One demand zone of population 1000 on geometry 20. -/
def blocksC9 : List (Nat × Option ℚ) := [(20, some 1000)]

/-- A null-capacity point next to a capacity-100 point in the same
zone. -/
def rowsC9 : List (Fac Nat) :=
  [{ geom := 1, capacity := none },
   { geom := 2, capacity := some 100 }]

/-- A single null-capacity row with a sanpin ceiling, for the C9
witness. -/
def rowsC9w : List (Fac Nat) :=
  [{ geom := 3, capacity := none, sanpin := some 7, capMax := 5,
     blockId := 2, demand := 10 }]

/-- Context for the C10 witness: no zone containment, Nat geometries. -/
def ctxC10 : GeoCtx Nat :=
  { gtypeOf := natGType, within := fun _ _ => false,
    area := fun _ => 1, centroid := fun g => g }

/-- A single facility holding exactly the default capacity. -/
def rowsC10 : List (Fac Nat) := [{ geom := 1, capacity := some 100 }]


/-! ### Numeric helper lemmas -/

theorem clip0_cases (x : Option ℚ) :
    clip0 x = none ∨ ∃ v, clip0 x = some v ∧ 0 ≤ v := by
  cases x with
  | none => exact Or.inl rfl
  | some v => exact Or.inr ⟨max 0 v, rfl, le_max_left 0 v⟩

theorem headOfF_cases (r : Fac G) :
    headOfF r = none ∨ ∃ v, headOfF r = some v ∧ 0 ≤ v :=
  clip0_cases _

theorem clip0_some_of_nonneg {x : ℚ} (h : 0 ≤ x) : clip0 (some x) = some x := by
  simp [clip0, max_eq_right h]

theorem maxSkip_of_sumSkip_pos :
    ∀ l : List (Option ℚ), 0 < sumSkip l → ∃ m, maxSkip l = some m := by
  intro l
  induction l with
  | nil => intro h; simp [sumSkip] at h
  | cons a t ih =>
    cases a with
    | none => intro h; simpa [maxSkip, sumSkip] using ih (by simpa [sumSkip] using h)
    | some v =>
      intro _
      cases h2 : maxSkip t with
      | none => exact ⟨v, by simp [maxSkip, h2]⟩
      | some m => exact ⟨max v m, by simp [maxSkip, h2]⟩

/-- round(x) for an integer-valued rational is the rational itself. -/
theorem roundHE_intCast (m : ℤ) : roundHE (m : ℚ) = (m : ℚ) := by
  unfold roundHE
  rw [Int.floor_intCast]
  norm_num

theorem roundHE_le_floor_add_one (x : ℚ) :
    roundHE x ≤ (Int.floor x : ℚ) + 1 := by
  unfold roundHE
  split_ifs <;> push_cast <;> linarith

theorem floor_le_roundHE (x : ℚ) : (Int.floor x : ℚ) ≤ roundHE x := by
  unfold roundHE
  split_ifs <;> push_cast <;> linarith

/-- Round half to even is weakly monotone. -/
theorem roundHE_mono {x y : ℚ} (h : x ≤ y) : roundHE x ≤ roundHE y := by
  have hf : Int.floor x ≤ Int.floor y := Int.floor_le_floor h
  rcases eq_or_lt_of_le hf with he | hl
  · have hx1 : x - (Int.floor x : ℚ) ≤ y - (Int.floor y : ℚ) := by
      rw [← he]; linarith
    unfold roundHE
    rw [← he]
    split_ifs <;> push_cast <;> linarith
  · calc roundHE x ≤ (Int.floor x : ℚ) + 1 := roundHE_le_floor_add_one x
      _ ≤ (Int.floor y : ℚ) := by
          have : Int.floor x + 1 ≤ Int.floor y := hl
          exact_mod_cast this
      _ ≤ roundHE y := floor_le_roundHE y

/-! ### Water-filling loop lemmas.  Under the pointwise invariant relAH
(the tentative allocation of each base row is between 0 and its headroom,
and is NaN exactly on the NaN-headroom rows), every pass of the loop is
the identity: no overshoot exists, so the clipped surplus is 0 and the
redistribution adds 0. -/

theorem forall2_getD {R : Option ℚ → Option ℚ → Prop}
    {l1 l2 : List (Option ℚ)} (h : List.Forall₂ R l1 l2) :
    ∀ i, i < l2.length → R (l1.getD i none) (l2.getD i none) := by
  induction h with
  | nil => intro i hi; simp at hi
  | cons h1 h2 ih =>
    intro i hi
    cases i with
    | zero => simpa using h1
    | succ j => simpa using ih j (by simpa using hi)

theorem sumSkip_over_zero {add head : List (Option ℚ)}
    (h : List.Forall₂ relAH add head) :
    sumSkip ((List.zipWith osub add head).map clip0) = 0 := by
  induction h with
  | nil => rfl
  | @cons a b add2 head2 h1 h2 ih =>
    cases a with
    | none =>
      cases b with
      | none => simpa [osub, clip0, sumSkip] using ih
      | some hv => exact absurd h1 (by simp [relAH])
    | some av =>
      cases b with
      | none => exact absurd h1 (by simp [relAH])
      | some hv =>
        have hle : av - hv ≤ 0 := sub_nonpos.mpr h1.2
        have : max 0 (av - hv) = 0 := max_eq_left hle
        simpa [osub, clip0, sumSkip, this] using ih

theorem zipWith_omin_id {add head : List (Option ℚ)}
    (h : List.Forall₂ relAH add head) :
    List.zipWith omin add head = add := by
  induction h with
  | nil => rfl
  | @cons a b add2 head2 h1 h2 ih =>
    cases a with
    | none =>
      cases b with
      | none => simpa [omin] using ih
      | some hv => exact absurd h1 (by simp [relAH])
    | some av =>
      cases b with
      | none => exact absurd h1 (by simp [relAH])
      | some hv =>
        have : min av hv = av := min_eq_left h1.2
        simpa [omin, this] using ih

theorem zip_redistribute_id (hfs : ℚ) {add head : List (Option ℚ)}
    (h : List.Forall₂ relAH add head) :
    List.zipWith
      (fun (p : Option ℚ × Option ℚ) (f : Bool) =>
        if f then oadd p.1 (omul (some 0) (odiv p.2 (some hfs))) else p.1)
      (add.zip head)
      (List.zipWith (fun a h => oltB a (osub h (some (1/1000000000000)))) add head)
      = add := by
  induction h with
  | nil => rfl
  | @cons a b add2 head2 h1 h2 ih =>
    cases a with
    | none =>
      cases b with
      | none => simpa [oltB, osub] using ih
      | some hv => exact absurd h1 (by simp [relAH])
    | some av =>
      cases b with
      | none => exact absurd h1 (by simp [relAH])
      | some hv =>
        by_cases hfree : oltB (some av) (osub (some hv) (some (1/1000000000000))) = true
        · simpa [hfree, oadd, omul, odiv] using ih
        · simp only [Bool.not_eq_true] at hfree
          simpa [hfree, oadd, omul, odiv] using ih

/-- Under the invariant the whole bounded loop returns its input. -/
theorem wfill_id (head : List (Option ℚ)) :
    ∀ (n : Nat) (add : List (Option ℚ)),
      List.Forall₂ relAH add head → wfill head n add = add := by
  intro n
  induction n with
  | zero => intro add _; rfl
  | succ m ih =>
    intro add hinv
    rw [wfill]
    by_cases hc : ((List.zipWith osub add head).all
        (fun o => oleB o (1/1000000000))) = true
    · rw [if_pos hc]
    · rw [if_neg hc]
      rw [zipWith_omin_id hinv]
      by_cases hf : ((List.zipWith
          (fun a h => oltB a (osub h (some (1/1000000000000)))) add head).any id) = true
      · rw [if_neg (by rw [hf]; decide)]
        rw [sumSkip_over_zero hinv]
        rw [zip_redistribute_id _ hinv]
        exact ih add hinv
      · simp only [Bool.not_eq_true] at hf
        rw [if_pos (by rw [hf]; decide)]

/-! ### The per-zone allocation: invariant and row-level specification -/

theorem add0_forall2 (head : List (Option ℚ)) (total v : ℚ)
    (ht : 0 < total) (hv0 : 0 < v) (hvt : v ≤ total)
    (hnn : ∀ x ∈ head, x = none ∨ ∃ hv, x = some hv ∧ 0 ≤ hv) :
    List.Forall₂ relAH (head.map (fun h => omul (odiv h (some total)) (some v)))
      head := by
  induction head with
  | nil => exact List.Forall₂.nil
  | cons x t ih =>
    refine List.Forall₂.cons ?_ (ih (fun y hy => hnn y (List.mem_cons_of_mem _ hy)))
    rcases hnn x (List.mem_cons_self _ _) with hx | ⟨hv, hx, hvnn⟩
    · subst hx; simp [odiv, omul, relAH]
    · subst hx
      simp only [odiv, omul, relAH]
      constructor
      · positivity
      · calc hv / total * v ≤ hv / total * total :=
            mul_le_mul_of_nonneg_left hvt (by positivity)
          _ = hv := div_mul_cancel₀ hv (ne_of_gt ht)

/-- A successful (not skipped) zone produces an allocation vector
pointwise between 0 and the headroom vector of the group base rows. -/
theorem groupAdds_forall2 {expf : ℚ → ℚ} {k dmax wmax : ℚ}
    {gb : List (Nat × Fac G)} {demandB : ℚ} {adds : List (Option ℚ)}
    (h : groupAdds expf k dmax wmax gb demandB = some adds) :
    List.Forall₂ relAH adds (gb.map (fun q => headOfF q.2)) := by
  simp only [groupAdds] at h
  split_ifs at h with h1 h2 h3 h4
  have ht : 0 < sumSkip (gb.map fun q => headOfF q.2) := lt_of_not_ge h3
  obtain ⟨m, hm⟩ := maxSkip_of_sumSkip_pos _ ht
  rw [hm] at h h4
  have haux :
      pymin (omul (omul (some m) (some (expf (k * (demandB / dmax)) / wmax)))
          (some (gb.length : ℚ))) (sumSkip (gb.map fun q => headOfF q.2)) =
        some (if sumSkip (gb.map fun q => headOfF q.2) <
            m * (expf (k * (demandB / dmax)) / wmax) * (gb.length : ℚ)
          then sumSkip (gb.map fun q => headOfF q.2)
          else m * (expf (k * (demandB / dmax)) / wmax) * (gb.length : ℚ)) := by
    simp [omul, pymin]
  rw [haux] at h h4
  simp only [oleB, decide_eq_true_eq, not_le] at h4
  have hnn : ∀ x ∈ gb.map (fun q => headOfF q.2),
      x = none ∨ ∃ hv, x = some hv ∧ 0 ≤ hv := by
    intro x hx
    obtain ⟨q, _, hq⟩ := List.mem_map.mp hx
    exact hq ▸ headOfF_cases q.2
  set total := sumSkip (gb.map fun q => headOfF q.2) with htot
  set tval := m * (expf (k * (demandB / dmax)) / wmax) * (gb.length : ℚ) with htv
  set v := if total < tval then total else tval with hvdef
  have hvt : v ≤ total := by
    rw [hvdef]; split
    · exact le_refl total
    · exact le_of_not_lt (by assumption)
  have hinv := add0_forall2 (gb.map fun q => headOfF q.2) total v ht h4 hvt hnn
  rw [wfill_id _ _ _ hinv] at h
  exact Option.some_inj.mp h ▸ hinv

theorem fieldsPreserved_initAlloc (r : Fac G) :
    fieldsPreserved (initAlloc r) r :=
  ⟨rfl, rfl, rfl, rfl, rfl, rfl, rfl, rfl, rfl, rfl⟩

theorem getD_map_eq {α β : Type} (f : α → β) (l : List α) (pos : Nat)
    (hpos : pos < l.length) (d : β) :
    (l.map f).getD pos d = f (l.get ⟨pos, hpos⟩) := by
  rw [List.getD_eq_getElem?_getD, List.getElem?_map,
    List.getElem?_eq_getElem hpos]
  rfl

/-- Row-level specification of the zone body: the pass-through columns
are preserved, and the written columns either keep their initialised
values or receive an allocation a with relAH a (headroom of the row),
new_capacity = round(capacity + a); the written case only happens for
base rows. -/
theorem allocRow_spec (expf : ℚ → ℚ) (k dmax wmax : ℚ)
    (g : List (Nat × Fac G)) (i : Nat) (r : Fac G)
    (hmem : (i, r) ∈ g) (hnd : (g.map Prod.fst).Nodup) :
    fieldsPreserved (allocRow expf k dmax wmax g i r) r ∧
      (((allocRow expf k dmax wmax g i r).addCap = some 0 ∧
        (allocRow expf k dmax wmax g i r).newCap = r.capacity) ∨
       (r.capType = CapType.base ∧ ∃ a, relAH a (headOfF r) ∧
        (allocRow expf k dmax wmax g i r).addCap = a ∧
        (allocRow expf k dmax wmax g i r).newCap = oround (oadd r.capacity a))) := by
  cases g with
  | nil => exact ⟨fieldsPreserved_initAlloc r, Or.inl ⟨rfl, rfl⟩⟩
  | cons p t =>
    rw [allocRow]
    split
    · exact ⟨fieldsPreserved_initAlloc r, Or.inl ⟨rfl, rfl⟩⟩
    · rename_i adds hga
      by_cases hb : r.capType = CapType.base
      · rw [if_pos hb]
        split
        · exact ⟨fieldsPreserved_initAlloc r, Or.inl ⟨rfl, rfl⟩⟩
        · rename_i pos hfi
          obtain ⟨hlen, hp, _⟩ := List.findIdx?_eq_some_iff_getElem.mp hfi
          have heq1 : ((baseRows (p :: t)).get ⟨pos, hlen⟩).1 = i :=
            of_decide_eq_true hp
          have hmemb : (i, r) ∈ baseRows (p :: t) :=
            List.mem_filter.mpr ⟨hmem, by simp [hb]⟩
          have hndb : ((baseRows (p :: t)).map Prod.fst).Nodup :=
            ((List.filter_sublist _).map Prod.fst).nodup hnd
          have helem : (baseRows (p :: t)).get ⟨pos, hlen⟩ = (i, r) :=
            List.inj_on_of_nodup_map hndb (List.get_mem _ _ _) hmemb
              (by simpa using heq1)
          have hf2 := groupAdds_forall2 hga
          have hrel := forall2_getD hf2 pos (by simpa using hlen)
          rw [getD_map_eq (fun q => headOfF q.2) _ pos hlen none] at hrel
          rw [helem] at hrel
          refine ⟨⟨rfl, rfl, rfl, rfl, rfl, rfl, rfl, rfl, rfl, rfl⟩,
            Or.inr ⟨hb, adds.getD pos none, hrel, rfl, rfl⟩⟩
      · rw [if_neg hb]
        exact ⟨fieldsPreserved_initAlloc r, Or.inl ⟨rfl, rfl⟩⟩

theorem allocate_length (expf : ℚ → ℚ) (k : ℚ) (rows : List (Fac G)) :
    (allocate_relative_to_max expf k rows).length = rows.length := by
  simp [allocate_relative_to_max]

theorem nodup_fst_filter_enum (rows : List (Fac G))
    (p : Nat × Fac G → Bool) :
    ((rows.enum.filter p).map Prod.fst).Nodup :=
  ((List.filter_sublist _).map Prod.fst).nodup
    (by rw [List.enum_map_fst]; exact List.nodup_range _)

theorem allocate_getD [Inhabited G] (expf : ℚ → ℚ) (k : ℚ)
    (rows : List (Fac G)) (i : Nat) (hi : i < rows.length) :
    (allocate_relative_to_max expf k rows).getD i dfac =
      allocRow expf k (max (listMaxQ (rows.map (fun r => r.demand))) 1)
        (expf (k * 1))
        (rows.enum.filter
          (fun q => decide (q.2.blockId = (rows.get ⟨i, hi⟩).blockId)))
        i (rows.get ⟨i, hi⟩) := by
  unfold allocate_relative_to_max
  have hi2 : i < rows.enum.length := by simpa using hi
  rw [getD_map_eq _ _ i hi2 dfac]
  have he : rows.enum.get ⟨i, hi2⟩ = (i, rows.get ⟨i, hi⟩) := by
    simp [List.getElem_enum rows i hi2]
  rw [he]

/-- Per-row specification of the whole allocation stage. -/
theorem allocate_row_spec [Inhabited G] (expf : ℚ → ℚ) (k : ℚ)
    (rows : List (Fac G)) (i : Nat) (hi : i < rows.length) :
    fieldsPreserved ((allocate_relative_to_max expf k rows).getD i dfac)
        (rows.getD i dfac) ∧
      ((((allocate_relative_to_max expf k rows).getD i dfac).addCap = some 0 ∧
        ((allocate_relative_to_max expf k rows).getD i dfac).newCap =
          (rows.getD i dfac).capacity) ∨
       ((rows.getD i dfac).capType = CapType.base ∧
        ∃ a, relAH a (headOfF (rows.getD i dfac)) ∧
          ((allocate_relative_to_max expf k rows).getD i dfac).addCap = a ∧
          ((allocate_relative_to_max expf k rows).getD i dfac).newCap =
            oround (oadd (rows.getD i dfac).capacity a))) := by
  have hg : rows.getD i dfac = rows.get ⟨i, hi⟩ := by
    rw [List.getD_eq_getElem?_getD, List.getElem?_eq_getElem hi]; rfl
  rw [allocate_getD expf k rows i hi, hg]
  apply allocRow_spec
  · refine List.mem_filter.mpr ⟨?_, by simp⟩
    exact List.mem_enum_iff_getElem?.mpr (by simp [List.getElem?_eq_getElem hi])
  · exact nodup_fst_filter_enum rows _

/-- Every output row of the allocation stage carries an added_capacity
between 0 and its own headroom (in the relAH sense, reading headroom off
the row own preserved cap_max and capacity columns). -/
theorem allocate_elem_rel (expf : ℚ → ℚ) (k : ℚ) (rows : List (Fac G)) :
    ∀ o ∈ allocate_relative_to_max expf k rows,
      o.addCap = some 0 ∨ ∃ a, relAH a (headOfF o) ∧ o.addCap = a := by
  intro o ho
  obtain ⟨p, hp, rfl⟩ := List.mem_map.mp ho
  have hmem : p ∈ rows.enum.filter
      (fun q => decide (q.2.blockId = p.2.blockId)) :=
    List.mem_filter.mpr ⟨hp, by simp⟩
  have hs := allocRow_spec expf k
    (max (listMaxQ (rows.map (fun r => r.demand))) 1) (expf (k * 1))
    (rows.enum.filter (fun q => decide (q.2.blockId = p.2.blockId)))
    p.1 p.2 (by simpa using hmem) (nodup_fst_filter_enum rows _)
  obtain ⟨⟨_, _, hcap, _, _, _, _, _, _, hcm⟩, hcase⟩ := hs
  have hhead : headOfF (allocRow expf k
      (max (listMaxQ (rows.map (fun r => r.demand))) 1) (expf (k * 1))
      (rows.enum.filter (fun q => decide (q.2.blockId = p.2.blockId)))
      p.1 p.2) = headOfF p.2 := by
    unfold headOfF
    rw [hcap, hcm]
  rcases hcase with ⟨hz, _⟩ | ⟨_, a, hrel, haddc, _⟩
  · exact Or.inl hz
  · exact Or.inr ⟨a, by rw [hhead]; exact hrel, haddc⟩

/-- Summing the pointwise relation: on any list of rows each satisfying
the conclusion of allocate_elem_rel, skipna-sum of added_capacity is at
most skipna-sum of headroom. -/
theorem sumSkip_add_le_head (l : List (Fac G))
    (h : ∀ o ∈ l, o.addCap = some 0 ∨ ∃ a, relAH a (headOfF o) ∧ o.addCap = a) :
    sumSkip (l.map (fun o => o.addCap)) ≤ sumSkip (l.map headOfF) := by
  induction l with
  | nil => exact le_refl 0
  | cons o t ih =>
    have hrest := ih (fun x hx => h x (List.mem_cons_of_mem _ hx))
    have hhd := h o (List.mem_cons_self _ _)
    have hheadnn := headOfF_cases o
    rcases hhd with hz | ⟨a, hrel, haddc⟩
    · rcases hheadnn with hn | ⟨v, hv, hvnn⟩
      · simp only [List.map_cons, hz, hn, sumSkip]
        linarith
      · simp only [List.map_cons, hz, hv, sumSkip]
        linarith
    · cases a with
      | none =>
        have hn : headOfF o = none := by
          cases hh : headOfF o with
          | none => rfl
          | some v => rw [hh] at hrel; exact absurd hrel (by simp [relAH])
        simp only [List.map_cons, haddc, hn, sumSkip]
        exact hrest
      | some av =>
        cases hh : headOfF o with
        | none => rw [hh] at hrel; exact absurd hrel (by simp [relAH])
        | some hv =>
          rw [hh] at hrel
          simp only [List.map_cons, haddc, hh, sumSkip]
          have : av ≤ hv := hrel.2
          linarith

theorem list_getD_eq_get {α : Type} (l : List α) (i : Nat)
    (h : i < l.length) (d : α) : l.getD i d = l.get ⟨i, h⟩ := by
  rw [List.getD_eq_getElem?_getD, List.getElem?_eq_getElem h]; rfl

/-! ### Claim theorems: the allocation engine (C1, C3, C5) and the
ceiling derivation (C2), with concrete fixtures over G = Nat. -/

/-- C1 is corrected.  Counterexample: one base polygon of capacity 100
(the base_count) with area 10 and m2_per_person 5 gives sanpin_cap 2,
hence cap_max = min(300, 2) = 2 < 100 = capacity; the facility is in no
zone, so new_capacity stays 100 > cap_max, violating
capacity <= new_capacity <= cap_max on the pipeline output. -/
theorem recompute_newCap_exceeds_capMax_example :
    ∃ l, recompute ctxSmallPoly constOne [] none
        [{ geom := 11, capacity := some 100 }] 300 100 5 2 = Except.ok l ∧
      ∃ r, r ∈ l ∧ ∃ nv, r.newCap = some nv ∧ r.capMax < nv := by
  refine ⟨_, rfl, ?_⟩
  with_unfolding_all decide

/-- C1 amended: for every facility row whose capacity is a non-null
integer and whose cap_max at allocation time is an integer at least that
capacity (as the derived ceilings are whenever capacities are integral
and the sanpin ceiling is not below the capacity),
capacity <= new_capacity <= cap_max holds on the allocation output. -/
theorem allocate_bounds_int [Inhabited G] (expf : ℚ → ℚ) (k : ℚ)
    (rows : List (Fac G)) (i : Nat) (hi : i < rows.length) (c : ℚ)
    (hc : (rows.getD i dfac).capacity = some c)
    (hcz : ∃ m : ℤ, c = (m : ℚ))
    (hmz : ∃ m : ℤ, (rows.getD i dfac).capMax = (m : ℚ))
    (hcm : c ≤ (rows.getD i dfac).capMax) :
    ∃ nv, ((allocate_relative_to_max expf k rows).getD i dfac).newCap = some nv ∧
      c ≤ nv ∧ nv ≤ (rows.getD i dfac).capMax := by
  obtain ⟨_, hcase⟩ := allocate_row_spec expf k rows i hi
  rcases hcase with ⟨_, h2⟩ | ⟨_, a, hrel, _, hnew⟩
  · exact ⟨c, by rw [h2, hc], le_refl c, hcm⟩
  · have hhead : headOfF (rows.getD i dfac) =
        some ((rows.getD i dfac).capMax - c) := by
      unfold headOfF
      rw [hc]
      simp only [osub]
      exact clip0_some_of_nonneg (by linarith)
    rw [hhead] at hrel
    cases a with
    | none => exact absurd hrel (by simp [relAH])
    | some av =>
      obtain ⟨hav0, havle⟩ := hrel
      obtain ⟨mc, rfl⟩ := hcz
      obtain ⟨mm, hmm⟩ := hmz
      rw [hc] at hnew
      refine ⟨roundHE ((mc : ℚ) + av), by rw [hnew]; rfl, ?_, ?_⟩
      · have h1 : roundHE ((mc : ℚ)) ≤ roundHE ((mc : ℚ) + av) :=
          roundHE_mono (by linarith)
        rw [roundHE_intCast] at h1
        exact h1
      · have h2 : roundHE ((mc : ℚ) + av) ≤ roundHE ((mm : ℚ)) :=
          roundHE_mono (by rw [← hmm]; linarith)
        rw [roundHE_intCast, ← hmm] at h2
        exact h2

theorem allocate_bounds_int_witness :
    (0 < ([facW1] : List (Fac Nat)).length ∧
      ([facW1].getD 0 dfac).capacity = some 100 ∧
      (100 : ℚ) ≤ ([facW1].getD 0 dfac).capMax) ∧
    ∃ nv, ((allocate_relative_to_max constOne 2 [facW1]).getD 0 dfac).newCap =
        some nv ∧ (100 : ℚ) ≤ nv ∧ nv ≤ ([facW1].getD 0 dfac).capMax :=
  ⟨⟨by decide, rfl, by norm_num [facW1]⟩,
    allocate_bounds_int constOne 2 [facW1] 0 (by decide) 100 rfl
      ⟨100, by norm_num⟩ ⟨300, by norm_num [facW1]⟩ (by norm_num [facW1])⟩

/-- C2 is corrected.  Counterexample: a base row with capacity 100 and
sanpin_cap 2 receives cap_max = min(300, 2) = 2 < 100, so
cap_max >= capacity does not hold for every input table. -/
theorem add_cap_max_below_capacity_example :
    ∃ r, r ∈ add_cap_max (G := Nat)
        [{ geom := 11, geomType := GType.polygon, capacity := some 100,
           capType := CapType.base, sanpin := some 2 }] ∧
      ∃ c, r.capacity = some c ∧ r.capMax < c := by
  with_unfolding_all decide

/-- C2 amended: after add_cap_max, cap_max equals capacity (nulls as 0)
for real rows and min(3 * capacity, sanpin_cap) for base rows; this is at
least the capacity for real rows always, and for base rows whenever the
capacity is non-null, nonnegative and not above the sanpin ceiling. -/
theorem add_cap_max_spec [Inhabited G] (rows : List (Fac G)) (i : Nat)
    (hi : i < rows.length) :
    (((rows.getD i dfac).capType = CapType.real →
        ((add_cap_max rows).getD i dfac).capMax =
          (rows.getD i dfac).capacity.getD 0) ∧
     ((rows.getD i dfac).capType = CapType.base →
        ((add_cap_max rows).getD i dfac).capMax =
          minQS (3 * (rows.getD i dfac).capacity.getD 0)
            (rows.getD i dfac).sanpin) ∧
     (∀ c, (rows.getD i dfac).capacity = some c → 0 ≤ c →
        (∀ s, (rows.getD i dfac).sanpin = some s → c ≤ s) →
        c ≤ ((add_cap_max rows).getD i dfac).capMax)) := by
  have hmap : (add_cap_max rows).getD i dfac =
      capMaxRow (rows.getD i dfac) := by
    unfold add_cap_max
    rw [list_getD_eq_get rows i hi dfac,
      getD_map_eq _ _ i (by simpa using hi) dfac]
  rw [hmap]
  unfold capMaxRow
  refine ⟨?_, ?_, ?_⟩
  · intro hreal
    simp only
    rw [if_neg (by rw [hreal]; simp)]
  · intro hbase
    simp only
    rw [if_pos hbase]
  · intro c hcap hc0 hsan
    by_cases hb : (rows.getD i dfac).capType = CapType.base
    · simp only
      rw [if_pos hb, hcap]
      cases hs : (rows.getD i dfac).sanpin with
      | none => simp only [minQS, Option.getD_some]; linarith
      | some s =>
        have := hsan s hs
        simp only [minQS, Option.getD_some]
        exact le_min (by linarith) this
    · simp only
      rw [if_neg hb, hcap]
      exact le_of_eq rfl

theorem add_cap_max_spec_witness :
    (0 < ([facW2] : List (Fac Nat)).length ∧
      ([facW2].getD 0 dfac).capType = CapType.base ∧
      ([facW2].getD 0 dfac).capacity = some 50) ∧
    (([facW2].getD 0 dfac).capType = CapType.base →
      ((add_cap_max [facW2]).getD 0 dfac).capMax =
        minQS (3 * ([facW2].getD 0 dfac).capacity.getD 0)
          ([facW2].getD 0 dfac).sanpin) :=
  ⟨⟨by decide, rfl, rfl⟩, (add_cap_max_spec [facW2] 0 (by decide)).2.1⟩

/-- C3: the allocation engine never increases a real-type facility: its
added_capacity stays 0.0 and its new_capacity stays equal to its
capacity, for every input table; only base rows can be written by the
per-zone allocation. -/
theorem allocate_real_untouched [Inhabited G] (expf : ℚ → ℚ) (k : ℚ)
    (rows : List (Fac G)) (i : Nat) (hi : i < rows.length)
    (hreal : (rows.getD i dfac).capType = CapType.real) :
    ((allocate_relative_to_max expf k rows).getD i dfac).addCap = some 0 ∧
    ((allocate_relative_to_max expf k rows).getD i dfac).newCap =
      (rows.getD i dfac).capacity := by
  obtain ⟨_, hcase⟩ := allocate_row_spec expf k rows i hi
  rcases hcase with ⟨h1, h2⟩ | ⟨hb, _⟩
  · exact ⟨h1, h2⟩
  · rw [hreal] at hb
    exact absurd hb (by decide)

theorem allocate_real_untouched_witness :
    (0 < ([facW3] : List (Fac Nat)).length ∧
      ([facW3].getD 0 dfac).capType = CapType.real) ∧
    ((allocate_relative_to_max constOne 2 [facW3]).getD 0 dfac).addCap =
        some 0 ∧
    ((allocate_relative_to_max constOne 2 [facW3]).getD 0 dfac).newCap =
      ([facW3].getD 0 dfac).capacity :=
  ⟨⟨by decide, rfl⟩, allocate_real_untouched constOne 2 [facW3] 0 (by decide) rfl⟩

/-- C5: for every zone, the skipna-sum of added_capacity over the base
rows of the zone in the allocation output is at most the skipna-sum of
their headrooms max(cap_max - capacity, 0) (headOfF reads exactly those
preserved columns). -/
theorem allocate_zone_added_le_headroom (expf : ℚ → ℚ) (k : ℚ)
    (rows : List (Fac G)) (bid : ℤ) :
    sumSkip (((allocate_relative_to_max expf k rows).filter
        (fun r => decide (r.blockId = bid) &&
          decide (r.capType = CapType.base))).map (fun r => r.addCap)) ≤
    sumSkip (((allocate_relative_to_max expf k rows).filter
        (fun r => decide (r.blockId = bid) &&
          decide (r.capType = CapType.base))).map headOfF) := by
  apply sumSkip_add_le_head
  intro o ho
  exact allocate_elem_rel expf k rows o (List.mem_of_mem_filter ho)

/-! ### attach_blocks: success and failure conditions (C7, C8) -/

theorem length_le_sum_max_one (l : List Nat) :
    l.length ≤ (l.map (fun m => max 1 m)).sum := by
  induction l with
  | nil => exact le_refl 0
  | cons m t ih =>
    simp only [List.map_cons, List.sum_cons, List.length_cons]
    have : 1 ≤ max 1 m := le_max_left 1 m
    omega

theorem sum_max_one_eq_iff (l : List Nat) :
    (l.map (fun m => max 1 m)).sum = l.length ↔ ∀ m ∈ l, m ≤ 1 := by
  induction l with
  | nil => simp
  | cons m t ih =>
    simp only [List.map_cons, List.sum_cons, List.length_cons, List.mem_cons]
    have h1 : 1 ≤ max 1 m := le_max_left 1 m
    have h2 := length_le_sum_max_one t
    constructor
    · intro he
      have hm : max 1 m = 1 := by omega
      have hts : (t.map (fun m => max 1 m)).sum = t.length := by omega
      intro x hx
      rcases hx with rfl | hx
      · have := le_max_right 1 x
        omega
      · exact (ih.mp hts) x hx
    · intro hall
      have hm : m ≤ 1 := hall m (Or.inl rfl)
      have hmax : max 1 m = 1 := by omega
      have hts := ih.mpr (fun x hx => hall x (Or.inr hx))
      omega

/-- When every anchor matches at most one zone, attach_blocks succeeds
and assigns per row its unique match (or the -1 and 0.0 fill values). -/
theorem attach_blocks_ok (ctx : GeoCtx G) (rows : List (Fac G))
    (blocks : List (Block G))
    (h1 : ∀ r ∈ rows, (zoneMatches ctx blocks r).length ≤ 1) :
    attach_blocks ctx rows blocks =
      Except.ok (rows.map (assignBlock ctx blocks)) := by
  have hall : ∀ m ∈ rows.map (fun r => (zoneMatches ctx blocks r).length),
      m ≤ 1 := by
    intro m hm
    obtain ⟨r, hr, rfl⟩ := List.mem_map.mp hm
    exact h1 r hr
  have hsum := (sum_max_one_eq_iff _).mpr hall
  unfold attach_blocks
  rw [if_neg (fun hcc => hcc (by rw [hsum, List.length_map]))]

/-- Helper: an assigned row with the sentinel block id -1 has demand 0,
provided no zone itself carries block id -1. -/
theorem attach_row_sentinel (ctx : GeoCtx G) (blocks : List (Block G))
    (hnz : ∀ b ∈ blocks, b.blockId ≠ -1) (r : Fac G)
    (hqid : (assignBlock ctx blocks r).blockId = -1) :
    (assignBlock ctx blocks r).demand = 0 := by
  unfold assignBlock at hqid ⊢
  cases hh : (zoneMatches ctx blocks r).head? with
  | none => simp only [hh]
  | some b =>
    rw [hh] at hqid
    exfalso
    have hb : b ∈ zoneMatches ctx blocks r :=
      List.mem_of_mem_head? (by rw [hh]; rfl)
    have : b ∈ blocks := List.mem_of_mem_filter hb
    exact hnz b this hqid

/-- A zone whose rows all have non-positive demand is skipped entirely. -/
theorem allocRow_skip (expf : ℚ → ℚ) (k dmax wmax : ℚ)
    (g : List (Nat × Fac G)) (i : Nat) (r : Fac G)
    (hall : ∀ p ∈ g, p.2.demand ≤ 0) :
    allocRow expf k dmax wmax g i r = initAlloc r := by
  cases g with
  | nil => rfl
  | cons p t =>
    have hga : groupAdds expf k dmax wmax (baseRows (p :: t)) p.2.demand =
        none := by
      unfold groupAdds
      rw [if_pos (hall p (List.mem_cons_self p t))]
    simp only [allocRow, hga]

/-- C7 is corrected.  Counterexample: with an input zone carrying the
user-supplied block_id -1, the unattached facility (row 1) still gets
block_id -1 and demand 0.0 from attach_blocks, but it lands in the same
groupby group as the facility attached to that zone, whose demand 300 is
read as the group demand, and the allocation engine grants the unattached
facility added_capacity 200 and new_capacity 300 instead of leaving it
frozen at its capacity 100. -/
theorem attach_sentinel_block_allocates_example :
    ∃ gf3, attach_blocks ctxSentinel rowsSentinel blocksSentinel =
        Except.ok gf3 ∧
      (gf3.getD 1 dfac).blockId = -1 ∧ (gf3.getD 1 dfac).demand = 0 ∧
      (gf3.getD 1 dfac).capacity = some 100 ∧
      ((allocate_relative_to_max constOne 2 (add_cap_max gf3)).getD 1
        dfac).addCap = some 200 ∧
      ((allocate_relative_to_max constOne 2 (add_cap_max gf3)).getD 1
        dfac).newCap = some 300 := by
  refine ⟨_, rfl, ?_, ?_, ?_, ?_, ?_⟩ <;> with_unfolding_all decide

/-- C7 amended: for a facility whose anchor falls in no demand zone,
attach_blocks (when it succeeds) assigns block_id = -1 and demand = 0.0;
and provided no input zone itself carries the sentinel block_id -1, the
allocation engine leaves that facility with added_capacity = 0 and
new_capacity equal to its capacity. -/
theorem attach_unmatched_frozen [Inhabited G] (ctx : GeoCtx G)
    (expf : ℚ → ℚ) (k : ℚ) (rows : List (Fac G)) (blocks : List (Block G))
    (i : Nat) (hi : i < rows.length)
    (hnz : ∀ b ∈ blocks, b.blockId ≠ -1)
    (hnomatch : zoneMatches ctx blocks (rows.getD i dfac) = [])
    (gf3 : List (Fac G))
    (hok : attach_blocks ctx rows blocks = Except.ok gf3) :
    (gf3.getD i dfac).blockId = -1 ∧ (gf3.getD i dfac).demand = 0 ∧
    ((allocate_relative_to_max expf k (add_cap_max gf3)).getD i dfac).addCap =
      some 0 ∧
    ((allocate_relative_to_max expf k (add_cap_max gf3)).getD i dfac).newCap =
      (rows.getD i dfac).capacity := by
  unfold attach_blocks at hok
  by_cases hcond : ((rows.map (fun r => (zoneMatches ctx blocks r).length)).map
      (fun m => max 1 m)).sum ≠ rows.length
  · rw [if_pos hcond] at hok
    exact absurd hok (by simp)
  · rw [if_neg hcond] at hok
    have hg := Except.ok.inj hok
    subst hg
    rw [list_getD_eq_get rows i hi dfac] at hnomatch ⊢
    have hassign : assignBlock ctx blocks (rows.get ⟨i, hi⟩) =
        { rows.get ⟨i, hi⟩ with blockId := -1, demand := 0 } := by
      unfold assignBlock
      simp only [hnomatch, List.head?_nil]
    have hgd : (rows.map (assignBlock ctx blocks)).getD i dfac =
        { rows.get ⟨i, hi⟩ with blockId := -1, demand := 0 } := by
      rw [getD_map_eq _ rows i hi dfac, hassign]
    have hi4 : i < (add_cap_max (rows.map (assignBlock ctx blocks))).length := by
      simp [add_cap_max, hi]
    rw [hgd, allocate_getD expf k _ i hi4]
    have hi42 : i < (rows.map (assignBlock ctx blocks)).length := by
      simpa using hi
    have hrow : (add_cap_max (rows.map (assignBlock ctx blocks))).get ⟨i, hi4⟩ =
        capMaxRow { rows.get ⟨i, hi⟩ with blockId := -1, demand := 0 } := by
      rw [← list_getD_eq_get _ i hi4 dfac]
      unfold add_cap_max
      rw [getD_map_eq _ _ i hi42 dfac, ← list_getD_eq_get _ i hi42 dfac, hgd]
    rw [hrow]
    have hall : ∀ p ∈ (add_cap_max (rows.map (assignBlock ctx blocks))).enum.filter
        (fun q => decide (q.2.blockId =
          (capMaxRow ({ rows.get ⟨i, hi⟩ with blockId := -1, demand := 0 } :
            Fac G)).blockId)), p.2.demand ≤ 0 := by
      intro p hp
      have hp1 := List.mem_of_mem_filter hp
      obtain ⟨hjb, hjv⟩ :=
        List.getElem?_eq_some.mp (List.mem_enum_iff_getElem?.mp hp1)
      have hjb2 : p.1 < rows.length := by
        simpa [add_cap_max] using hjb
      have hval : p.2 =
          capMaxRow (assignBlock ctx blocks (rows.get ⟨p.1, hjb2⟩)) := by
        rw [← hjv]
        unfold add_cap_max
        rw [List.getElem_map, List.getElem_map]
        rfl
      have hpid := of_decide_eq_true (List.mem_filter.mp hp).2
      have hass_id : (assignBlock ctx blocks (rows.get ⟨p.1, hjb2⟩)).blockId =
          -1 := by
        rw [hval] at hpid
        exact hpid
      have hdem := attach_row_sentinel ctx blocks hnz _ hass_id
      rw [hval]
      show (assignBlock ctx blocks (rows.get ⟨p.1, hjb2⟩)).demand ≤ 0
      rw [hdem]
    rw [allocRow_skip expf k _ _ _ i _ hall]
    exact ⟨rfl, rfl, rfl, rfl⟩

theorem attach_unmatched_frozen_witness :
    ((1 : Nat) < rowsW7.length ∧ (∀ b ∈ blocksW7, b.blockId ≠ -1) ∧
      zoneMatches ctxW7 blocksW7 (rowsW7.getD 1 dfac) = [] ∧
      attach_blocks ctxW7 rowsW7 blocksW7 = Except.ok gf3W7) ∧
    ((gf3W7.getD 1 dfac).blockId = -1 ∧ (gf3W7.getD 1 dfac).demand = 0 ∧
     ((allocate_relative_to_max constOne 2 (add_cap_max gf3W7)).getD 1
       dfac).addCap = some 0 ∧
     ((allocate_relative_to_max constOne 2 (add_cap_max gf3W7)).getD 1
       dfac).newCap = (rowsW7.getD 1 dfac).capacity) :=
  ⟨⟨by decide, by decide, by decide, rfl⟩,
   attach_unmatched_frozen ctxW7 constOne 2 rowsW7 blocksW7 1 (by decide)
     (by decide) (by decide) gf3W7 rfl⟩

/-- C8 is corrected.  Counterexample: a facility whose anchor lies in two
zones makes attach_blocks raise the pandas length-mismatch ValueError
(the left spatial join has 2 rows against 1 facility) instead of
assigning the first match. -/
theorem attach_overlapping_zones_error_example :
    attach_blocks ctxEverywhere [{ geom := 1, capacity := some 100 }]
      [{ geom := 20, blockId := 0, demand := 300 },
       { geom := 21, blockId := 1, demand := 150 }] =
    Except.error "Length of values does not match length of index" := rfl

/-- C8 amended: attach_blocks returns a well-formed table with one row
per facility whenever every anchor matches at most one zone, assigning
each facility its unique matching zone id and demand, or -1 and 0.0 when
unmatched; an anchor in more than one zone instead raises a length
mismatch error (see the counterexample). -/
theorem attach_unique_match_spec [Inhabited G] (ctx : GeoCtx G)
    (rows : List (Fac G)) (blocks : List (Block G))
    (h1 : ∀ r ∈ rows, (zoneMatches ctx blocks r).length ≤ 1) :
    ∃ out, attach_blocks ctx rows blocks = Except.ok out ∧
      out.length = rows.length ∧
      ∀ i, i < rows.length →
        ((zoneMatches ctx blocks (rows.getD i dfac)).head? = none →
          (out.getD i dfac).blockId = -1 ∧ (out.getD i dfac).demand = 0) ∧
        (∀ b, (zoneMatches ctx blocks (rows.getD i dfac)).head? = some b →
          (out.getD i dfac).blockId = b.blockId ∧
          (out.getD i dfac).demand = b.demand) := by
  refine ⟨rows.map (assignBlock ctx blocks),
    attach_blocks_ok ctx rows blocks h1, by simp, ?_⟩
  intro i hi
  rw [getD_map_eq _ rows i hi dfac, list_getD_eq_get rows i hi dfac]
  constructor
  · intro hn
    unfold assignBlock
    rw [hn]
    exact ⟨rfl, rfl⟩
  · intro b hb
    unfold assignBlock
    rw [hb]
    exact ⟨rfl, rfl⟩

theorem attach_unique_match_spec_witness :
    (∀ r ∈ rowsW7, (zoneMatches ctxW7 blocksW7 r).length ≤ 1) ∧
    ∃ out, attach_blocks ctxW7 rowsW7 blocksW7 = Except.ok out ∧
      out.length = rowsW7.length ∧
      ∀ i, i < rowsW7.length →
        ((zoneMatches ctxW7 blocksW7 (rowsW7.getD i dfac)).head? = none →
          (out.getD i dfac).blockId = -1 ∧ (out.getD i dfac).demand = 0) ∧
        (∀ b, (zoneMatches ctxW7 blocksW7 (rowsW7.getD i dfac)).head? = some b →
          (out.getD i dfac).blockId = b.blockId ∧
          (out.getD i dfac).demand = b.demand) :=
  ⟨by decide, attach_unique_match_spec ctxW7 rowsW7 blocksW7 (by decide)⟩

/-! ### The Coincidence Merger (C4, C6) -/

theorem filter_resetFlags (P : Fac G → Bool)
    (hP : ∀ r, P (resetFlags r) = P r) (rows : List (Fac G)) :
    (rows.map resetFlags).filter P = (rows.filter P).map resetFlags := by
  rw [List.filter_map]
  exact congrArg _ (List.filter_congr (fun x _ => hP x))

theorem coveredBy_reset (ctx : GeoCtx G) (rows : List (Fac G)) (p : Fac G) :
    coveredBy ctx
      ((rows.map resetFlags).filter
        (fun r => decide (r.geomType = GType.polygon))) p =
    coversAny ctx rows p := by
  unfold coveredBy coversAny
  rw [filter_resetFlags (fun r => decide (r.geomType = GType.polygon))
    (fun r => rfl) rows]
  rw [List.any_map, List.any_filter]
  rfl

theorem length_filter_not (l : List (Fac G)) (p : Fac G → Bool) :
    (l.filter p).length + (l.filter (fun x => !p x)).length = l.length := by
  induction l with
  | nil => rfl
  | cons r t ih =>
    by_cases hp : p r = true
    · simp [List.filter_cons, hp, ih]
      omega
    · simp only [Bool.not_eq_true] at hp
      simp [List.filter_cons, hp, ih]
      omega

theorem length_filter_three (l : List (Fac G)) :
    (l.filter (fun r => decide (r.geomType = GType.polygon))).length +
    ((l.filter (fun r => decide (r.geomType = GType.point))).length +
     (l.filter (fun r => !decide (r.geomType = GType.polygon) &&
       !decide (r.geomType = GType.point))).length) = l.length := by
  induction l with
  | nil => rfl
  | cons r t ih =>
    cases hg : r.geomType <;>
      simp [List.filter_cons, hg] <;> omega

theorem coveredBy_mergePolys (ctx : GeoCtx G) (rows : List (Fac G))
    (p : Fac G) :
    coveredBy ctx (mergePolys rows) p = coversAny ctx rows p := by
  unfold mergePolys
  exact coveredBy_reset ctx rows p

theorem mergePolys_length (rows : List (Fac G)) :
    (mergePolys rows).length =
      (rows.filter (fun r => decide (r.geomType = GType.polygon))).length := by
  unfold mergePolys
  rw [filter_resetFlags (fun r => decide (r.geomType = GType.polygon))
    (fun r => rfl) rows, List.length_map]

theorem mergePoints_length (rows : List (Fac G)) :
    (mergePoints rows).length =
      (rows.filter (fun r => decide (r.geomType = GType.point))).length := by
  unfold mergePoints
  rw [filter_resetFlags (fun r => decide (r.geomType = GType.point))
    (fun r => rfl) rows, List.length_map]

theorem mergeOthers_length (rows : List (Fac G)) :
    (mergeOthers rows).length =
      (rows.filter (fun r => !decide (r.geomType = GType.polygon) &&
        !decide (r.geomType = GType.point))).length := by
  unfold mergeOthers
  rw [filter_resetFlags (fun r => !decide (r.geomType = GType.polygon) &&
    !decide (r.geomType = GType.point)) (fun r => rfl) rows, List.length_map]

/-- The covered points of the merger are in bijection with the input
rows satisfying isCoveredPoint. -/
theorem mergeCovered_length (ctx : GeoCtx G) (rows : List (Fac G)) :
    (mergeCovered ctx rows).length =
      (rows.filter (fun r => isCoveredPoint ctx rows r)).length := by
  unfold mergeCovered mergePoints
  rw [List.filter_filter]
  rw [filter_resetFlags (fun a => coveredBy ctx (mergePolys rows) a &&
    decide (a.geomType = GType.point)) (fun r => rfl) rows, List.length_map]
  congr 1
  apply List.filter_congr
  intro x _
  rw [coveredBy_mergePolys]
  unfold isCoveredPoint
  rw [Bool.and_comm]

theorem merge_partition_length (rows : List (Fac G)) :
    (mergePolys rows).length +
      ((mergePoints rows).length + (mergeOthers rows).length) =
      rows.length := by
  unfold mergePolys mergePoints mergeOthers
  have h := length_filter_three (rows.map resetFlags)
  simpa using h

theorem merge_points_partition (ctx : GeoCtx G) (rows : List (Fac G)) :
    (mergeCovered ctx rows).length + (mergeRemaining ctx rows).length =
      (mergePoints rows).length := by
  unfold mergeCovered mergeRemaining
  exact length_filter_not _ _

/-- C6 amended: the merger returns one row per input facility except the
covered points, which are removed from the returned table; the row count
of the output plus the number of covered points equals the input row
count, on every input. -/
theorem merge_row_count (ctx : GeoCtx G) (rows : List (Fac G)) :
    (merge_points_into_polygons_keep_polys ctx rows).rows.length +
      (rows.filter (fun r => isCoveredPoint ctx rows r)).length =
      rows.length := by
  have hcov := mergeCovered_length ctx rows
  unfold merge_points_into_polygons_keep_polys
  by_cases h1 : ((mergePoints rows).isEmpty || (mergePolys rows).isEmpty) = true
  · rw [if_pos h1]
    simp only [List.length_map]
    have h0 : (mergeCovered ctx rows).length = 0 := by
      rcases (Bool.or_eq_true _ _).mp h1 with hpt | hpl
      · unfold mergeCovered
        rw [List.isEmpty_iff.mp hpt]
        rfl
      · unfold mergeCovered
        have hplnil : mergePolys rows = [] := List.isEmpty_iff.mp hpl
        have hfalse : ∀ p ∈ mergePoints rows,
            ¬ (coveredBy ctx (mergePolys rows) p = true) := by
          intro p _
          rw [hplnil]
          simp [coveredBy]
        rw [List.filter_eq_nil_iff.mpr hfalse]
        rfl
    omega
  · rw [if_neg h1]
    by_cases h2 : (mergeCovered ctx rows).isEmpty = true
    · rw [if_pos h2]
      have h0 : (mergeCovered ctx rows).length = 0 := by
        rw [List.isEmpty_iff.mp h2]
        rfl
      simp only [List.length_map]
      omega
    · rw [if_neg h2]
      simp only [List.length_map, List.enum_length]
      unfold mergeConcat
      simp only [List.length_append, List.length_map]
      have h3 := merge_points_partition ctx rows
      have h4 := merge_partition_length rows
      omega

/-- The capacities selected by the merger for the polygon with geometry
g are exactly realCoveredCaps. -/
theorem mergeSel_caps (ctx : GeoCtx G) (rows : List (Fac G)) (g : G) :
    ((mergeRealPts ctx rows).filter (fun p => ctx.within p.geom g)).map
      (fun p => p.capacity) = realCoveredCaps ctx rows g := by
  unfold mergeRealPts mergeCovered mergePoints realCoveredCaps
  rw [List.filter_filter, List.filter_filter, List.filter_filter]
  rw [filter_resetFlags (fun a => ctx.within a.geom g &&
    decide (a.capType = CapType.real) && coveredBy ctx (mergePolys rows) a &&
    decide (a.geomType = GType.point)) (fun r => rfl) rows]
  rw [List.map_map]
  have hf : ((fun p : Fac G => p.capacity) ∘ resetFlags) =
      (fun p : Fac G => p.capacity) := funext (fun p => rfl)
  rw [hf]
  have hl : rows.filter (fun a => ctx.within a.geom g &&
      decide (a.capType = CapType.real) &&
      coveredBy ctx (mergePolys rows) a &&
      decide (a.geomType = GType.point)) =
      rows.filter (fun p =>
        ((coversAny ctx rows p && decide (p.geomType = GType.point)) &&
          decide (p.capType = CapType.real)) && ctx.within p.geom g) := by
    apply List.filter_congr
    intro a _
    rw [coveredBy_mergePolys]
    cases ctx.within a.geom g <;> cases decide (a.capType = CapType.real) <;>
      cases coversAny ctx rows a <;>
      cases decide (a.geomType = GType.point) <;> rfl
  rw [hl]

theorem updPoly_geomType (ctx : GeoCtx G) (rows : List (Fac G)) (q : Fac G) :
    (updPoly ctx rows q).geomType = q.geomType := by
  unfold updPoly
  split <;> rfl

theorem updPoly_geom (ctx : GeoCtx G) (rows : List (Fac G)) (q : Fac G) :
    (updPoly ctx rows q).geom = q.geom := by
  unfold updPoly
  split <;> rfl

/-- C4 amended: in the main branch of the merger, for every polygon row
whose set of real covered points is nonempty, the returned table holds a
polygon with that geometry carrying the maximum (never the sum) of those
points capacities and cap_type real; covered points are marked dropped
in the merger working table (returned as flags and joined back only
positionally), but no covered point row appears in the returned table. -/
theorem merge_transfer_spec [Inhabited G] (ctx : GeoCtx G)
    (rows : List (Fac G)) (j : Nat) (hj : j < rows.length)
    (hpoly : (rows.getD j dfac).geomType = GType.polygon)
    (hne : realCoveredCaps ctx rows ((rows.getD j dfac).geom) ≠ []) :
    (∃ q ∈ (merge_points_into_polygons_keep_polys ctx rows).rows,
        q.geom = (rows.getD j dfac).geom ∧
        q.capacity =
          maxSkip (realCoveredCaps ctx rows ((rows.getD j dfac).geom)) ∧
        q.capType = CapType.real) ∧
    (∀ q ∈ (merge_points_into_polygons_keep_polys ctx rows).rows,
        q.geomType = GType.point → coversAny ctx rows q = false) ∧
    (∀ i, i < rows.length →
        isCoveredPoint ctx rows (rows.getD i dfac) = true →
        ((merge_points_into_polygons_keep_polys ctx rows).flags.getD i
          dfac).keep = false ∧
        ((merge_points_into_polygons_keep_polys ctx rows).flags.getD i
          dfac).dropReason = some "covered_by_polygon") := by
  rw [list_getD_eq_get rows j hj dfac] at hpoly hne ⊢
  -- the real covered points of the polygon, in implementation form
  have hsel : ((mergeRealPts ctx rows).filter
      (fun p => ctx.within p.geom (rows.get ⟨j, hj⟩).geom)) ≠ [] := by
    intro hnil
    apply hne
    rw [← mergeSel_caps ctx rows (rows.get ⟨j, hj⟩).geom, hnil]
    rfl
  -- the three guards of the merger all fail, landing in the main branch
  obtain ⟨w, hw⟩ : ∃ w, w ∈ (mergeRealPts ctx rows).filter
      (fun p => ctx.within p.geom (rows.get ⟨j, hj⟩).geom) := by
    cases hc : (mergeRealPts ctx rows).filter
        (fun p => ctx.within p.geom (rows.get ⟨j, hj⟩).geom) with
    | nil => exact absurd hc hsel
    | cons a t => exact ⟨a, hc ▸ List.mem_cons_self a t⟩
  have hwcov : w ∈ mergeCovered ctx rows :=
    List.mem_of_mem_filter (List.mem_of_mem_filter hw)
  have hcovne : ¬ ((mergeCovered ctx rows).isEmpty = true) := by
    intro hemp
    rw [List.isEmpty_iff.mp hemp] at hwcov
    exact absurd hwcov (List.not_mem_nil w)
  have hptne : ¬ ((mergePoints rows).isEmpty = true) := by
    intro hemp
    have := List.mem_of_mem_filter hwcov
    rw [List.isEmpty_iff.mp hemp] at this
    exact absurd this (List.not_mem_nil w)
  have hpj : resetFlags (rows.get ⟨j, hj⟩) ∈ mergePolys rows := by
    unfold mergePolys
    exact List.mem_filter.mpr
      ⟨List.mem_map_of_mem resetFlags (List.get_mem rows j hj),
        by simp [resetFlags]; exact hpoly⟩
  have hplne : ¬ ((mergePolys rows).isEmpty = true) := by
    intro hemp
    rw [List.isEmpty_iff.mp hemp] at hpj
    exact absurd hpj (List.not_mem_nil _)
  unfold merge_points_into_polygons_keep_polys
  rw [if_neg (by simp [hptne, hplne]), if_neg hcovne]
  refine ⟨?_, ?_, ?_⟩
  · -- the transferred polygon appears in the output
    have hx : updPoly ctx rows (resetFlags (rows.get ⟨j, hj⟩)) ∈
        mergeConcat ctx rows := by
      unfold mergeConcat
      exact List.mem_append_left _ (List.mem_append_left _
        (List.mem_map_of_mem _ hpj))
    obtain ⟨n, hn, hxv⟩ := List.mem_iff_getElem.mp hx
    have henum : (n, updPoly ctx rows (resetFlags (rows.get ⟨j, hj⟩))) ∈
        (mergeConcat ctx rows).enum := by
      apply List.mem_enum_iff_getElem?.mpr
      simp only
      rw [List.getElem?_eq_getElem hn, hxv]
    refine ⟨_, List.mem_map_of_mem _ henum, ?_, ?_, ?_⟩
    · show (updPoly ctx rows (resetFlags (rows.get ⟨j, hj⟩))).geom = _
      rw [updPoly_geom]
      rfl
    · show (updPoly ctx rows (resetFlags (rows.get ⟨j, hj⟩))).capacity = _
      unfold updPoly
      rw [if_neg (by
        intro hemp
        exact hsel (List.isEmpty_iff.mp hemp))]
      show maxSkip _ = _
      rw [mergeSel_caps ctx rows]
      rfl
    · show (updPoly ctx rows (resetFlags (rows.get ⟨j, hj⟩))).capType = _
      unfold updPoly
      rw [if_neg (by
        intro hemp
        exact hsel (List.isEmpty_iff.mp hemp))]
  · -- no covered point in the output
    intro q hq hqpt
    obtain ⟨p, hp, rfl⟩ := List.mem_map.mp hq
    have hpmem : p.2 ∈ mergeConcat ctx rows := by
      obtain ⟨_, hpv⟩ := List.mem_enum hp
      exact hpv ▸ List.getElem_mem _
    unfold mergeConcat at hpmem
    rcases List.mem_append.mp hpmem with hin | hother
    · rcases List.mem_append.mp hin with hpoly2 | hrem
      · -- an updated polygon cannot be a point
        exfalso
        obtain ⟨y, hy, hyv⟩ := List.mem_map.mp hpoly2
        have h1 : p.2.geomType = GType.polygon := by
          rw [← hyv, updPoly_geomType]
          exact of_decide_eq_true (List.mem_filter.mp hy).2
        have h2 : p.2.geomType = GType.point := hqpt
        rw [h1] at h2
        exact absurd h2 (by decide)
      · -- a remaining point is uncovered
        have h3 := (List.mem_filter.mp hrem).2
        have h4 : coveredBy ctx (mergePolys rows) p.2 = false := by
          cases hcb : coveredBy ctx (mergePolys rows) p.2 with
          | false => rfl
          | true => rw [hcb] at h3; exact absurd h3 (by decide)
        show coversAny ctx rows p.2 = false
        rw [← coveredBy_mergePolys ctx rows p.2]
        exact h4
    · -- an other-geometry row cannot be a point
      exfalso
      have h3 := (List.mem_filter.mp hother).2
      have h2 : p.2.geomType = GType.point := hqpt
      rw [h2] at h3
      exact absurd h3 (by decide)
  · -- covered points are marked dropped in the working table
    intro i hi hicov
    rw [list_getD_eq_get rows i hi dfac] at hicov
    unfold mergeFlags
    have hi2 : i < (rows.map resetFlags).length := by simpa using hi
    rw [getD_map_eq _ _ i hi2 dfac]
    have hgm : (rows.map resetFlags).get ⟨i, hi2⟩ =
        resetFlags (rows.get ⟨i, hi⟩) := by
      simp [List.getElem_map]
    rw [hgm]
    have hcond : (decide ((resetFlags (rows.get ⟨i, hi⟩)).geomType =
        GType.point) && coveredBy ctx (mergePolys rows)
          (resetFlags (rows.get ⟨i, hi⟩))) = true := by
      rw [coveredBy_mergePolys ctx rows (resetFlags (rows.get ⟨i, hi⟩))]
      exact hicov
    rw [if_pos hcond]
    exact ⟨rfl, rfl⟩

theorem merge_transfer_spec_witness :
    (0 < rowsC4.length ∧
      (rowsC4.getD 0 dfac).geomType = GType.polygon ∧
      realCoveredCaps ctxC4 rowsC4 ((rowsC4.getD 0 dfac).geom) ≠ []) ∧
    (∃ q ∈ (merge_points_into_polygons_keep_polys ctxC4 rowsC4).rows,
      q.geom = (rowsC4.getD 0 dfac).geom ∧
      q.capacity = maxSkip (realCoveredCaps ctxC4 rowsC4
        ((rowsC4.getD 0 dfac).geom)) ∧
      q.capType = CapType.real) :=
  ⟨⟨by decide, rfl, by with_unfolding_all decide⟩,
    (merge_transfer_spec ctxC4 rowsC4 0 (by decide) rfl
      (by with_unfolding_all decide)).1⟩

/-- C4 is corrected.  The transfer (groupby-max onto the polygon,
cap_type set to real) does happen, but the covered point is not a row of
the returned table at all: it is removed, so no returned row is marked
keep=False with drop_reason covered_by_polygon.  Here the real point of
capacity 50 covered by the base polygon of capacity 7 yields a one-row
output holding the polygon with capacity 50, and no point row exists in
the output to carry the drop marking. -/
theorem merge_covered_point_not_in_output_example :
    rowsC4.length = 2 ∧
    (merge_points_into_polygons_keep_polys ctxC4 rowsC4).rows.length = 1 ∧
    (∀ q ∈ (merge_points_into_polygons_keep_polys ctxC4 rowsC4).rows,
      q.geomType ≠ GType.point ∧ q.keep = true) ∧
    ((merge_points_into_polygons_keep_polys ctxC4 rowsC4).rows.getD 0
      dfac).capacity = some 50 := by
  with_unfolding_all decide

/-- C6 is corrected.  The merger output does not contain one row per
input facility: a covered point is removed from the returned table
(points.drop(index=pts_idx)), not retained with keep=False for audit.
Two input rows, a polygon covering a real point, produce a one-row
output. -/
theorem merge_drops_covered_point_example :
    rowsC6.length = 2 ∧
    (merge_points_into_polygons_keep_polys ctxC6 rowsC6).rows.length = 1 := by
  with_unfolding_all decide

/-- C9 is corrected.  A null capacity is classified base, but it is not
treated as the value 0 with growth up to a ceiling: cap_max becomes
min(3 * 0, sanpin) = 0, the NaN headroom propagates through the
allocation, and the row ends with added_capacity and new_capacity both
NaN, while a sibling row in the same zone does receive growth. -/
theorem null_capacity_no_growth_example :
    ∃ out, recompute ctxC9 constOne blocksC9 none rowsC9 300 100 5 2 =
        Except.ok out ∧
      (out.getD 0 dfac).capType = CapType.base ∧
      (out.getD 0 dfac).capMax = 0 ∧
      (out.getD 0 dfac).addCap = none ∧
      (out.getD 0 dfac).newCap = none ∧
      (out.getD 1 dfac).addCap = some 200 := by
  refine ⟨_, rfl, ?_⟩
  with_unfolding_all decide

/-- C9 amended: a null-capacity facility is classified base (the true
part of the claim), but its ceiling is min(0, sanpin_cap) rather than a
growth ceiling three times a fallback value, and the allocation engine
propagates the NaN: the row ends with added_capacity 0 (zone skipped) or
NaN (zone allocated), and new_capacity NaN, never positive growth. -/
theorem null_capacity_spec [Inhabited G] (ctx : GeoCtx G) (bc : ℚ)
    (expf : ℚ → ℚ) (k : ℚ) (rows : List (Fac G)) (i : Nat)
    (hi : i < rows.length)
    (hnull : (rows.getD i dfac).capacity = none) :
    ((prepare_services_cap_types ctx bc rows).getD i dfac).capType =
      CapType.base ∧
    ((add_cap_max rows).getD i dfac).capMax =
      (if (rows.getD i dfac).capType = CapType.base
        then minQS 0 ((rows.getD i dfac).sanpin) else 0) ∧
    (((allocate_relative_to_max expf k rows).getD i dfac).addCap = some 0 ∨
      ((allocate_relative_to_max expf k rows).getD i dfac).addCap = none) ∧
    ((allocate_relative_to_max expf k rows).getD i dfac).newCap = none := by
  have hnullg : (rows.get ⟨i, hi⟩).capacity = none := by
    rw [← list_getD_eq_get rows i hi dfac]
    exact hnull
  refine ⟨?_, ?_, ?_⟩
  · unfold prepare_services_cap_types
    rw [getD_map_eq _ rows i hi dfac]
    show capTypeOf bc (rows.get ⟨i, hi⟩).capacity = CapType.base
    rw [hnullg]
    rfl
  · rw [list_getD_eq_get rows i hi dfac]
    unfold add_cap_max
    rw [getD_map_eq capMaxRow rows i hi dfac]
    simp only [capMaxRow, hnullg, Option.getD_none]
    norm_num
  · obtain ⟨_, hcase⟩ := allocate_row_spec expf k rows i hi
    rcases hcase with ⟨ha, hn⟩ | ⟨hb, a, hrel, ha, hn⟩
    · refine ⟨Or.inl ha, ?_⟩
      rw [hn, hnull]
    · have hhead : headOfF (rows.getD i dfac) = none := by
        unfold headOfF
        rw [hnull]
        rfl
      rw [hhead] at hrel
      have hanone : a = none := by
        cases a with
        | none => rfl
        | some v => exact absurd hrel (by simp [relAH])
      subst hanone
      refine ⟨Or.inr ha, ?_⟩
      rw [hn, hnull]
      rfl

theorem null_capacity_spec_witness :
    (0 < rowsC9w.length ∧ (rowsC9w.getD 0 dfac).capacity = none) ∧
    (((prepare_services_cap_types ctxC9 100 rowsC9w).getD 0 dfac).capType =
        CapType.base ∧
      ((add_cap_max rowsC9w).getD 0 dfac).capMax =
        (if (rowsC9w.getD 0 dfac).capType = CapType.base
          then minQS 0 ((rowsC9w.getD 0 dfac).sanpin) else 0) ∧
      (((allocate_relative_to_max constOne 2 rowsC9w).getD 0 dfac).addCap =
          some 0 ∨
        ((allocate_relative_to_max constOne 2 rowsC9w).getD 0 dfac).addCap =
          none) ∧
      ((allocate_relative_to_max constOne 2 rowsC9w).getD 0 dfac).newCap =
        none) :=
  ⟨⟨by decide, rfl⟩,
    null_capacity_spec ctxC9 100 constOne 2 rowsC9w 0 (by decide) rfl⟩

/-- C10: prepare_services_cap_types classifies a facility as base iff
its capacity is null or lies within absolute tolerance 1e-6 of
base_count; the comparison is the tolerance predicate of _isclose, not
exact equality. -/
theorem cap_type_tolerance_iff [Inhabited G] (ctx : GeoCtx G) (bc : ℚ)
    (rows : List (Fac G)) (i : Nat) (hi : i < rows.length) :
    (((prepare_services_cap_types ctx bc rows).getD i dfac).capType =
        CapType.base) ↔
      ((rows.getD i dfac).capacity = none ∨
        ∃ v, (rows.getD i dfac).capacity = some v ∧
          |v - bc| ≤ 1/1000000) := by
  rw [list_getD_eq_get rows i hi dfac]
  unfold prepare_services_cap_types
  rw [getD_map_eq _ rows i hi dfac]
  show capTypeOf bc (rows.get ⟨i, hi⟩).capacity = CapType.base ↔ _
  cases hc : (rows.get ⟨i, hi⟩).capacity with
  | none =>
    simp [capTypeOf]
  | some v =>
    simp only [capTypeOf]
    constructor
    · intro h
      by_cases hcl : isclose v bc = true
      · exact Or.inr ⟨v, rfl, of_decide_eq_true hcl⟩
      · rw [if_neg hcl] at h
        exact absurd h (by decide)
    · intro h
      rcases h with hnone | ⟨w, hw, hle⟩
      · exact absurd hnone (by simp)
      · have hvw : v = w := by injection hw
        rw [if_pos (show isclose v bc = true by
          rw [hvw]
          exact decide_eq_true hle)]

theorem cap_type_tolerance_iff_witness :
    0 < rowsC10.length ∧
    ((((prepare_services_cap_types ctxC10 100 rowsC10).getD 0 dfac).capType =
        CapType.base) ↔
      ((rowsC10.getD 0 dfac).capacity = none ∨
        ∃ v, (rowsC10.getD 0 dfac).capacity = some v ∧
          |v - 100| ≤ 1/1000000)) :=
  ⟨by decide, cap_type_tolerance_iff ctxC10 100 rowsC10 0 (by decide)⟩

end Changer
